import Mathlib

/-!
Verification of the vitess-bot repository against its natural-language
specification.  The Go source is shallowly embedded: pure computations
(semantic-version parsing and rendering, label decisions, version-pair table
updates, diff-tree line parsing, command construction) become Lean functions;
effectful steps (GitHub API calls, subprocess execution, file reads) are
modelled by explicit outcome environments passed to the embedded control flow.
Machine unsigned integers are modelled as Nat with explicit bounds where the
source can overflow (strconv.ParseUint with bitSize 64).
-/

namespace VitessBot

/-! ## go/semver (semver.go): versions, parsing, rendering, next/prev helpers -/

namespace Semver

/-- Embeds `type Version struct { Major, Minor, Patch uint; RCVersion uint }`. -/
structure Version where
  Major : Nat
  Minor : Nat
  Patch : Nat
  RCVersion : Nat
deriving Repr, DecidableEq

/-- Maximal leading run of decimal digits of a character list, together with
the remainder (the semantics of a greedy `\d+`/`\d*` scan). -/
def takeDigits : List Char → List Char × List Char
  | [] => ([], [])
  | c :: l =>
    if c.isDigit then
      let p := takeDigits l
      (c :: p.1, p.2)
    else ([], c :: l)

/-- The submatch vector produced by Go's `FindStringSubmatch` on
`(v)?(\d+)\.(\d+)\.(\d+)(-rc\d+)?`: the full match `m[0]` and the five
capture groups (empty list when a group did not participate). -/
structure SubMatch where
  full : List Char
  groupV : List Char
  groupMajor : List Char
  groupMinor : List Char
  groupPatch : List Char
  groupRC : List Char
deriving Repr, DecidableEq

/-- Greedy match of the trailing optional group `(-rc\d+)?` at the head of
`rest`: the matched text (empty when the group did not participate) and the
remainder. -/
def matchRC (rest : List Char) : List Char × List Char :=
  match rest with
  | c1 :: c2 :: c3 :: l7 =>
    if c1 == '-' && c2 == 'r' && c3 == 'c' then
      match takeDigits l7 with
      | (rcd, l8) => if rcd.isEmpty then ([], rest) else ('-' :: 'r' :: 'c' :: rcd, l8)
    else ([], rest)
  | _ => ([], rest)

/-- Matching of `(\d+)\.(\d+)\.(\d+)(-rc\d+)?` at the head of `l1`, with the
already-consumed `(v)?` group `vpart`.  Greediness of the digit runs is
captured by `takeDigits`: a digit run followed by a mandatory `.` admits no
backtracking (a digit given back can never match `.`). -/
def matchAfterV (vpart l1 : List Char) : Option SubMatch :=
  match takeDigits l1 with
  | (maj, l2) =>
    if maj.isEmpty then none
    else
      match l2 with
      | [] => none
      | c1 :: l3 =>
        if c1 == '.' then
          match takeDigits l3 with
          | (minr, l4) =>
            if minr.isEmpty then none
            else
              match l4 with
              | [] => none
              | c2 :: l5 =>
                if c2 == '.' then
                  match takeDigits l5 with
                  | (pat, l6) =>
                    if pat.isEmpty then none
                    else
                      match matchRC l6 with
                      | (rcpart, _) =>
                        some { full := vpart ++ maj ++ '.' :: minr ++ '.' :: pat ++ rcpart
                               groupV := vpart
                               groupMajor := maj
                               groupMinor := minr
                               groupPatch := pat
                               groupRC := rcpart }
                else none
        else none

/-- Matching of `(v)?(\d+)\.(\d+)\.(\d+)(-rc\d+)?` anchored at the head of
`l`.  The optional `(v)?` first tries to consume a leading `v`; if no digits
follow it, re-trying with the group empty also fails (a `v` is not a digit),
so no backtracking case is needed. -/
def matchVersionAt (l : List Char) : Option SubMatch :=
  match l with
  | [] => matchAfterV [] []
  | c :: rest => if c == 'v' then matchAfterV ['v'] rest else matchAfterV [] (c :: rest)

/-- Leftmost search of the unanchored pattern, as `FindStringSubmatch`
performs it: try each start position from the left. -/
def findVersionSubmatch : List Char → Option SubMatch
  | [] => matchVersionAt []
  | c :: rest =>
    match matchVersionAt (c :: rest) with
    | some m => some m
    | none => findVersionSubmatch rest

/-- Value of a decimal digit string. -/
def digitsToNat (l : List Char) : Nat :=
  l.foldl (fun acc c => acc * 10 + (c.toNat - 48)) 0

/-- Embeds `strconv.ParseUint(s, 10, 64)` on the digit strings produced by the
regexp groups: fails on an empty or non-digit string (invalid syntax) and on a
value exceeding 64 bits (value out of range). -/
def parseUint64 (l : List Char) : Except String Nat :=
  if l.isEmpty then Except.error "invalid syntax"
  else if l.all Char.isDigit then
    if digitsToNat l < 2 ^ 64 then Except.ok (digitsToNat l)
    else Except.error "value out of range"
  else Except.error "invalid syntax"

/-- Text of `versionRegexp`, used in the parse-failure message. -/
def versionRegexpText : String := "(v)?(\\d+)\\.(\\d+)\\.(\\d+)(-rc\\d+)?"

/-- The message `Parse` produces when the regexp finds no match. -/
def invalidMsg (s : String) : String :=
  s ++ " is not a valid semver (does not match " ++ versionRegexpText ++ ")"

/-- Embeds `semver.Parse`.  The regexp is applied unanchored via
`FindStringSubmatch`; each numeric group goes through `ParseUint` with
bitSize 64; the RC group, when present, is parsed after stripping `-rc`. -/
def Parse (s : String) : Except String Version := do
  match findVersionSubmatch s.data with
  | none => Except.error (invalidMsg s)
  | some m =>
    let major ← parseUint64 m.groupMajor
    let minor ← parseUint64 m.groupMinor
    let patch ← parseUint64 m.groupPatch
    let rc ←
      if m.groupRC.isEmpty then pure 0
      else parseUint64 (m.groupRC.drop 3)
    pure { Major := major, Minor := minor, Patch := patch, RCVersion := rc }

/-- Embeds `Version.String()`: always `MAJOR.MINOR.PATCH`, with `-rcN`
appended exactly when the RC number is positive. -/
def Version.render (v : Version) : String :=
  toString v.Major ++ "." ++ toString v.Minor ++ "." ++ toString v.Patch ++
    (if v.RCVersion > 0 then "-rc" ++ toString v.RCVersion else "")

/-- Embeds `Version.NextMajor()`. -/
def Version.nextMajor (v : Version) : Version :=
  { Major := v.Major + 1, Minor := 0, Patch := 0, RCVersion := 0 }

/-- Embeds `Version.PrevMajor()`; `none` models the fatal `panic` branch
taken when the major version is already zero. -/
def Version.prevMajor (v : Version) : Option Version :=
  if v.Major == 0 then none
  else some { Major := v.Major - 1, Minor := 0, Patch := 0, RCVersion := 0 }

/-- Embeds `Version.NextMinor()`. -/
def Version.nextMinor (v : Version) : Version :=
  { Major := v.Major, Minor := v.Minor + 1, Patch := 0, RCVersion := 0 }

/-- Embeds `Version.PrevMinor()`; `none` models the fatal `panic` branch. -/
def Version.prevMinor (v : Version) : Option Version :=
  if v.Minor == 0 then none
  else some { Major := v.Major, Minor := v.Minor - 1, Patch := 0, RCVersion := 0 }

/-- Embeds `Version.NextPatch()`. -/
def Version.nextPatch (v : Version) : Version :=
  { Major := v.Major, Minor := v.Minor, Patch := v.Patch + 1, RCVersion := 0 }

/-- Embeds `Version.PrevPatch()`; `none` models the fatal `panic` branch. -/
def Version.prevPatch (v : Version) : Option Version :=
  if v.Patch == 0 then none
  else some { Major := v.Major, Minor := v.Minor, Patch := v.Patch - 1, RCVersion := 0 }

/-- Embeds `Version.NextRCVersion()`. -/
def Version.nextRCVersion (v : Version) : Version :=
  { Major := v.Major, Minor := v.Minor, Patch := v.Patch, RCVersion := v.RCVersion + 1 }

/-- Embeds `Version.PrevRCVersion()`; `none` models the fatal `panic` branch. -/
def Version.prevRCVersion (v : Version) : Option Version :=
  if v.RCVersion == 0 then none
  else some { Major := v.Major, Minor := v.Minor, Patch := v.Patch, RCVersion := v.RCVersion - 1 }

/-- Removal of the optional leading `v` of the specification grammar. -/
def stripLeadV : List Char → List Char
  | [] => []
  | c :: r => if c == 'v' then r else c :: r

/-- The optional `-rcN` suffix of the specification grammar: either nothing,
or `-rc` followed by a digit run that ends the string. -/
def specRCTail : List Char → Bool
  | [] => true
  | c1 :: rest1 =>
    c1 == '-' &&
      match rest1 with
      | [] => false
      | c2 :: rest2 =>
        c2 == 'r' &&
          match rest2 with
          | [] => false
          | c3 :: r6 =>
            c3 == 'c' &&
              match takeDigits r6 with
              | (rcd, r7) => !rcd.isEmpty && r7.isEmpty

/-- Follows the specification grammar word for word (for comparison with the
code's unanchored regexp search): an optional leading `v`, then
`MAJOR.MINOR.PATCH` with each component a nonempty digit run, then an
optional `-rcN` suffix, with nothing else before or after. -/
def specGrammarL (l : List Char) : Bool :=
  match takeDigits (stripLeadV l) with
  | (maj, r1) =>
    !maj.isEmpty &&
      match r1 with
      | [] => false
      | c :: r2 =>
        c == '.' &&
          match takeDigits r2 with
          | (minr, r3) =>
            !minr.isEmpty &&
              match r3 with
              | [] => false
              | c2 :: r4 =>
                c2 == '.' &&
                  match takeDigits r4 with
                  | (pat, r5) => !pat.isEmpty && specRCTail r5

/-- String form of the specification grammar. -/
def specGrammar (s : String) : Bool := specGrammarL s.data

end Semver

/-! ## Generic string helpers shared by several embedded functions -/

/-- `pat` is a prefix of `l` (character lists). -/
def headMatches : List Char → List Char → Bool
  | _, [] => true
  | [], _ :: _ => false
  | a :: l, b :: p => a == b && headMatches l p

/-- Embeds `strings.Contains(s, pat)` on character lists. -/
def containsSub (pat : List Char) : List Char → Bool
  | [] => headMatches [] pat
  | a :: l => headMatches (a :: l) pat || containsSub pat l

/-- Embeds `strings.Contains` on strings. -/
def strContains (s pat : String) : Bool := containsSub pat.data s.data

/-- Embeds `strings.EqualFold(s, t)` for the comparisons this program makes,
where `t` is an ASCII-lowercase constant (`backport`/`forwardport`):
`EqualFold` walks the two rune sequences in lockstep and accepts a pair
exactly when the two runes share a `unicode.SimpleFold` orbit.  The orbit of
an ASCII lowercase letter is the letter and its uppercase form, plus
U+212A KELVIN SIGN for `k` and U+017F LATIN SMALL LETTER LONG S for `s` —
the only ASCII fold orbits with non-ASCII members; the orbit of any other
ASCII character is just itself. -/
def eqFold (s t : String) : Bool :=
  s.data.length == t.data.length &&
    (s.data.zip t.data).all fun p =>
      p.1 == p.2 ||
      ('a' ≤ p.2 && p.2 ≤ 'z' && p.1.toNat + 32 == p.2.toNat) ||
      (p.2 == 'k' && p.1.toNat == 0x212A) ||
      (p.2 == 's' && p.1.toNat == 0x017F)

namespace Git

/-! ## go/git (repo.go, branch.go, diff_tree.go) -/

/-- Embeds `type Repo struct { Owner, Name, LocalDir string }` together with
the `DefaultBranch` attached by the builder setters. -/
structure Repo where
  Owner : String
  Name : String
  LocalDir : String
  DefaultBranch : String
deriving Repr, DecidableEq

/-- The observable shape of one `shell` command built by a `Repo` method:
executable name, arguments, and the working directory given to `InDir`
(`none` models a command never scoped with `InDir`, which `os/exec` then runs
in the calling process's current directory). -/
structure GitCmd where
  name : String
  args : List String
  dir : Option String
deriving Repr, DecidableEq

/-- Embeds `Repo.Add`: `git add <args...>`, no `InDir`. -/
def Repo.addCmd (_ : Repo) (arg : List String) : GitCmd :=
  { name := "git", args := "add" :: arg, dir := none }

/-- Embeds `Repo.Checkout`: `git checkout <ref>` in the local directory. -/
def Repo.checkoutCmd (r : Repo) (ref : String) : GitCmd :=
  { name := "git", args := ["checkout", ref], dir := some r.LocalDir }

/-- Embeds `Repo.CherryPickMerge`: `git cherry-pick -m 1 <sha>` in the local
directory. -/
def Repo.cherryPickMergeCmd (r : Repo) (sha : String) : GitCmd :=
  { name := "git", args := ["cherry-pick", "-m", "1", sha], dir := some r.LocalDir }

/-- Embeds `Repo.Clean`: `git clean -fd` in the local directory. -/
def Repo.cleanCmd (r : Repo) : GitCmd :=
  { name := "git", args := ["clean", "-fd"], dir := some r.LocalDir }

/-- Embeds `Repo.Clone`: `git clone <url> <localdir>`, no `InDir` (the target
directory is passed as an argument instead). -/
def Repo.cloneCmd (r : Repo) : GitCmd :=
  { name := "git"
    args := ["clone", "https://github.com/" ++ r.Owner ++ "/" ++ r.Name ++ ".git", r.LocalDir]
    dir := none }

/-- Embeds `type CommitOpts struct { Author string; Amend, NoEdit bool }`. -/
structure CommitOpts where
  Author : String
  Amend : Bool
  NoEdit : Bool
deriving Repr, DecidableEq

/-- Embeds `Repo.Commit`: `git commit` with message/author/amend flags, no
`InDir`.  (`fmt.Sprintf("--author=%q", a)` is modelled as plain double
quoting, exact for author strings without characters `%q` escapes.) -/
def Repo.commitCmd (_ : Repo) (msg : String) (opts : CommitOpts) : GitCmd :=
  { name := "git"
    args := "commit" ::
      ((if !opts.NoEdit then ["-m", msg] else ["--no-edit"]) ++
        (if opts.Author != "" then ["--author=\"" ++ opts.Author ++ "\""] else []) ++
        (if opts.Amend then ["--amend"] else []))
    dir := none }

/-- Embeds `Repo.fetch` (backing `Fetch` and `FetchRef`): `git fetch <args>`
in the local directory. -/
def Repo.fetchCmd (r : Repo) (arg : List String) : GitCmd :=
  { name := "git", args := "fetch" :: arg, dir := some r.LocalDir }

/-- Embeds `Repo.Pull`: `git pull` in the local directory. -/
def Repo.pullCmd (r : Repo) : GitCmd :=
  { name := "git", args := ["pull"], dir := some r.LocalDir }

/-- Embeds `type PushOpts`. -/
structure PushOpts where
  Remote : String
  Refs : List String
  Force : Bool
  ForceWithLease : Bool
deriving Repr, DecidableEq

/-- Embeds `Repo.Push`: `git push` with force/remote/ref arguments, no
`InDir`. -/
def Repo.pushCmd (_ : Repo) (opts : PushOpts) : GitCmd :=
  { name := "git"
    args := "push" ::
      ((if opts.ForceWithLease then ["--force-with-lease"]
        else if opts.Force then ["--force"] else []) ++
        (if opts.Remote != "" then
          opts.Remote :: (if opts.Refs.length > 0 then opts.Refs else [])
        else []))
    dir := none }

/-- Embeds `Repo.ResetHard`: `git reset --hard <ref>` in the local
directory. -/
def Repo.resetHardCmd (r : Repo) (ref : String) : GitCmd :=
  { name := "git", args := ["reset", "--hard", ref], dir := some r.LocalDir }

/-- Embeds `Repo.Status`: `git status <args>` with `InDir("/tmp/website")`
hard-coded in the source. -/
def Repo.statusCmd (_ : Repo) (arg : List String) : GitCmd :=
  { name := "git", args := "status" :: arg, dir := some "/tmp/website" }

/-- Embeds `Repo.CreateBranch` (branch.go): a `CreateRef` API failure whose
message contains `already exists` is tolerated; any other failure is
returned.  `apiResult` is the outcome of the underlying `client.Git.CreateRef`
call (`none` for success, `some msg` for an error with message `msg`). -/
def CreateBranch (apiResult : Option String) : Except String Unit :=
  match apiResult with
  | none => Except.ok ()
  | some msg =>
    if strContains msg "already exists" then Except.ok () else Except.error msg

/-- A GitHub tree entry as `ParseDiffTreeEntry` constructs it (the fields of
`github.TreeEntry` the function touches). -/
structure TreeEntry where
  path : String
  mode : String
  typ : String
  content : Option String
  sha : Option String
deriving Repr, DecidableEq

/-- Word character of the regexp class `\w`: `[0-9A-Za-z_]`. -/
def isWordChar (c : Char) : Bool := c.isAlphanum || c == '_'

/-- Lower-case hexadecimal digit, the class `[a-f0-9]`. -/
def isHexLower (c : Char) : Bool := c.isDigit || ('a' ≤ c && c ≤ 'f')

/-- Take exactly `n` characters satisfying `p`. -/
def takeExact (p : Char → Bool) : Nat → List Char → Option (List Char × List Char)
  | 0, l => some ([], l)
  | _ + 1, [] => none
  | n + 1, c :: l =>
    if p c then (takeExact p n l).map (fun q => (c :: q.1, q.2)) else none

/-- The anchored match of `diffTreeEntryRegexp`
`^:(\d{6}) (\d{6}) ([a-f0-9]{40}) ([a-f0-9]{40}) [A-Z]\W(.*)$` against a
whole line, returning (old mode, new mode, old sha, new sha, path).  `.` does
not match a newline and the pattern has no multiline flag, so a line
containing a newline past the status letter cannot match. -/
def matchDiffTreeLine (l : List Char) : Option (List Char × List Char × List Char × List Char × List Char) :=
  match l with
  | ':' :: l1 =>
    match takeExact Char.isDigit 6 l1 with
    | some (oldMode, ' ' :: l2) =>
      match takeExact Char.isDigit 6 l2 with
      | some (newMode, ' ' :: l3) =>
        match takeExact isHexLower 40 l3 with
        | some (oldSha, ' ' :: l4) =>
          match takeExact isHexLower 40 l4 with
          | some (newSha, ' ' :: l5) =>
            match l5 with
            | status :: sep :: path =>
              if ('A' ≤ status && status ≤ 'Z') && !isWordChar sep
                  && !path.any (· == '\n') then
                some (oldMode, newMode, oldSha, newSha, path)
              else none
            | _ => none
          | _ => none
        | _ => none
      | _ => none
    | _ => none
  | _ => none

/-- Embeds `ParseDiffTreeEntry(line, basedir)`.  File-system reads are
modelled by `readFile`, mapping a path to its content (`none` models a read
error).  A line whose new mode is the all-zero sentinel yields a deletion
entry carrying the old mode and neither content nor SHA; otherwise the file
content at `basedir/path` is embedded inline. -/
def ParseDiffTreeEntry (readFile : String → Option String) (line : String)
    (basedir : String) : Except String TreeEntry :=
  match matchDiffTreeLine line.data with
  | none => Except.error ("invalid diff-tree line format " ++ line)
  | some (oldMode, newMode, _, _, path) =>
    let pathS := String.mk path
    if String.mk newMode == "000000" then
      Except.ok { path := pathS, mode := String.mk oldMode, typ := "blob"
                  content := none, sha := none }
    else
      match readFile (basedir ++ "/" ++ pathS) with
      | none => Except.error ("read " ++ basedir ++ "/" ++ pathS)
      | some content =>
        Except.ok { path := pathS, mode := String.mk newMode, typ := "blob"
                    content := some content, sha := none }

end Git

/-! ## go (main package): pull_request.go, porting.go, config.go,
cobradocs_sync.go -/

/-- A Go panic value as `recover()` observes it: either a value satisfying
the `error` interface (carrying its message) or any other value. -/
inductive PanicVal where
  | errVal (msg : String)
  | nonErr (description : String)
deriving Repr, DecidableEq

/-- Embeds `panicHandler(logger)` (pull_request.go): called deferred, it
recovers the pending panic value (if any), logs it with a stack trace, and
returns it as an error only when the recovered value itself satisfies the
`error` interface; otherwise it falls through and returns nil. -/
def panicHandler (recovered : Option PanicVal) : Option String :=
  match recovered with
  | none => none
  | some pv =>
    match pv with
    | PanicVal.errVal m => some m
    | PanicVal.nonErr _ => none

/-- Outcome of a handler-step body: either it returned normally with the
given error result, or it panicked with the given value. -/
inductive BodyOutcome where
  | returned (err : Option String)
  | panicked (pv : PanicVal)
deriving Repr, DecidableEq

/-- Embeds the deferred recovery wrapper used by every step of
`PullRequestHandler` (`defer func() { if e := panicHandler(logger); e != nil
{ err = e } }()`): the step always returns normally; the named return value
is overwritten only when `panicHandler` yields a non-nil error.  When the
body panicked, the named return still holds its zero value `nil`. -/
def handlerStep (body : BodyOutcome) : Option String :=
  let errAtReturn : Option String :=
    match body with
    | BodyOutcome.returned e => e
    | BodyOutcome.panicked _ => none
  let recovered : Option PanicVal :=
    match body with
    | BodyOutcome.returned _ => none
    | BodyOutcome.panicked pv => some pv
  match panicHandler recovered with
  | some e => some e
  | none => errAtReturn

/-- The label set `alwaysAddLabels` (pull_request.go). -/
def alwaysAddLabels : List String :=
  ["NeedsWebsiteDocsUpdate", "NeedsDescriptionUpdate", "NeedsIssue", "NeedsBackportReason"]

/-- Embeds the decision of `PullRequestHandler.addLabels` on an "opened"
pull request: if any existing label equals `backport` or `forwardport` under
case folding, nothing is added; otherwise exactly `alwaysAddLabels` is sent
to `AddLabelsToIssue`. -/
def addLabelsDecision (labels : List String) : List String :=
  if labels.any (fun l => eqFold l "backport" || eqFold l "forwardport") then []
  else alwaysAddLabels

/-- Embeds the label computation of `addLabelsToPortedPR` (porting.go): the
carried-over labels, plus `Merge Conflict` and `Skip CI` when the port
conflicted, plus the direction label. -/
def portedPRLabels (labels : List String) (conflict : Bool) (portType : String) : List String :=
  (labels ++ (if conflict then ["Merge Conflict", "Skip CI"] else [])) ++
    (if portType == "backport" then ["Backport"]
     else if portType == "forwardport" then ["Forwardport"] else [])

/-- The pull-request creation payload built by `cherryPickAndPortPR`. -/
structure NewPR where
  title : String
  head : String
  base : String
  body : String
  maintainerCanModify : Bool
  draft : Bool
deriving Repr, DecidableEq

/-- Embeds the `github.NewPullRequest` literal of `cherryPickAndPortPR`. -/
def mkPortedPR (branch origTitle : String) (origNumber : Nat)
    (portType newBranch : String) (conflict : Bool) : NewPR :=
  { title := "[" ++ branch ++ "] " ++ origTitle ++ " (#" ++ toString origNumber ++ ")"
    head := newBranch
    base := branch
    body := "## Description\nThis is a " ++ portType ++ " of #" ++ toString origNumber
    maintainerCanModify := true
    draft := conflict }

/-- Embeds the conflict-comment body of `addConflictCommentToPortedPR`
(porting.go), with each `%s`/`%d` verb of the format string substituted. -/
def conflictCommentBody (author portType owner repoName : String)
    (newPRNumber : Nat) (branch sha : String) : String :=
  "Hello @" ++ author ++ ", there are conflicts in this " ++ portType ++
    ".\n\nPlease address them in order to merge this Pull Request. You can execute the snippet below to reset your branch and resolve the conflict manually.\n\nMake sure you replace `origin` by the name of the " ++
    owner ++ "/" ++ repoName ++ " remote \n```\ngit fetch --all\ngh pr checkout " ++
    toString newPRNumber ++ " -R " ++ owner ++ "/" ++ repoName ++
    "\ngit reset --hard origin/" ++ branch ++ "\ngit cherry-pick -m 1 " ++ sha ++ "\n"

/-- The GitHub-visible actions of one port operation: the pull request that
was opened, the labels applied to it, and the conflict comment (when one was
posted). -/
structure PortActions where
  newPR : NewPR
  labelsAdded : List String
  conflictComment : Option String
deriving Repr, DecidableEq

/-- Embeds the conflict determination and action sequence of
`cherryPickAndPortPR` + `portPR` for one target branch, given the outcome of
the `git cherry-pick -m 1` invocation (`none` for success, `some msg` for a
failure with message `msg`):

- a failure whose message contains `conflicts` stages everything, commits,
  and marks the port conflicted;
- any other failure aborts the port for this branch;
- the PR is created with `Draft: &conflict`; labels are added via
  `addLabelsToPortedPR`; the conflict comment is posted exactly when the port
  conflicted. -/
def portPRActions (cherryPickResult : Option String)
    (author mergedCommitSHA branch origTitle : String) (origNumber : Nat)
    (portType newBranch owner repoName : String) (newPRNumber : Nat)
    (labels : List String) : Except String PortActions :=
  match cherryPickResult with
  | some msg =>
    if strContains msg "conflicts" then
      Except.ok
        { newPR := mkPortedPR branch origTitle origNumber portType newBranch true
          labelsAdded := portedPRLabels labels true portType
          conflictComment :=
            some (conflictCommentBody author portType owner repoName newPRNumber branch
              mergedCommitSHA) }
    else Except.error msg
  | none =>
    Except.ok
      { newPR := mkPortedPR branch origTitle origNumber portType newBranch false
        labelsAdded := portedPRLabels labels false portType
        conflictComment := none }

/-- The conflict flag `cherryPickAndPortPR` derives from the outcome of
`git cherry-pick -m 1`: set exactly when the command failed with a message
containing `conflicts`. -/
def cherryPickConflict (cherryPickResult : Option String) : Bool :=
  match cherryPickResult with
  | none => false
  | some msg => strContains msg "conflicts"

/-- One entry of the documentation site's version-pair table
(`type versionPair struct { release semver.Version; tag, docs string }`,
config.go).  `main` entries carry `tag = "main"` and a zero `release`. -/
structure VersionPair where
  release : Semver.Version
  tag : String
  docs : String
deriving Repr, DecidableEq

/-- The `isRCBump` loop of `updateVersionPairs` (config.go): true exactly
when the new version is a release candidate and some tracked pair already
carries its major version. -/
def isRCBumpOf (originalPairs : List VersionPair) (version : Semver.Version) : Bool :=
  version.RCVersion != 0 &&
    originalPairs.any (fun p => p.release.Major == version.Major)

/-- The fresh `main:<major+1>.0` pair inserted by `updateVersionPairs` for
the first RC of an untracked major (its `release` is the zero value). -/
def newMainPair (version : Semver.Version) : VersionPair :=
  { release := { Major := 0, Minor := 0, Patch := 0, RCVersion := 0 }
    tag := "main"
    docs := toString (version.Major + 1) ++ ".0" }

/-- One iteration of the main loop of `updateVersionPairs`: substitute the
pair whose release major matches the new version (keeping its docs label),
or — on the `main` pair, when the new version is an RC of an untracked
major — prepend the fresh `main` pair to the accumulated output and append
the new version carrying the old `main` docs label, or keep the pair. -/
def updateStep (version : Semver.Version) (isRCBump : Bool)
    (acc : List VersionPair) (pair : VersionPair) : List VersionPair :=
  if pair.release.Major == version.Major then
    acc ++ [{ release := version, tag := "", docs := pair.docs }]
  else if pair.tag == "main" && version.RCVersion > 0 && !isRCBump then
    (newMainPair version :: acc) ++ [{ release := version, tag := "", docs := pair.docs }]
  else acc ++ [pair]

/-- Embeds `updateVersionPairs(originalPairs, version)` (config.go). -/
def updateVersionPairs (originalPairs : List VersionPair) (version : Semver.Version) :
    List VersionPair :=
  originalPairs.foldl (updateStep version (isRCBumpOf originalPairs version)) []

/-- Outcomes of the external calls `createAndCheckoutBranch`
(cobradocs_sync.go) performs: the `GetRef` API call, the `CreateRef` API call
inside `Repo.CreateBranch`, the `setupRepo` sequence, and the final
checkout.  `none` is success; `some msg` a failure with message `msg`. -/
structure BranchEnv where
  getRefResult : Option String
  createRefResult : Option String
  setupRepoResult : Option String
  checkoutResult : Option String
deriving Repr, DecidableEq

/-- Embeds `createAndCheckoutBranch(ctx, client, repo, baseBranch, newBranch,
op)`: a `GetRef` failure returns; the result of `repo.CreateBranch` is
computed but the wrapped error built from it is discarded (the source calls
`errors.Wrapf` without `return`); then `setupRepo` and `Checkout` run
regardless, and their errors propagate. -/
def createAndCheckoutBranch (env : BranchEnv) : Except String Unit :=
  match env.getRefResult with
  | some msg => Except.error ("Failed to fetch ref: " ++ msg)
  | none =>
    let _discarded := Git.CreateBranch env.createRefResult
    match env.setupRepoResult with
    | some msg => Except.error msg
    | none =>
      match env.checkoutResult with
      | some msg => Except.error ("Failed to checkout: " ++ msg)
      | none => Except.ok ()

/-! ## Helper lemmas -/

namespace Semver

lemma takeDigits_append_self : ∀ l : List Char, (takeDigits l).1 ++ (takeDigits l).2 = l := by
  intro l
  induction l with
  | nil => rfl
  | cons c l ih =>
    by_cases h : c.isDigit = true
    · simp [takeDigits, h, ih]
    · simp [takeDigits, h]

lemma takeDigits_all_digits : ∀ l : List Char, (takeDigits l).1.all Char.isDigit = true := by
  intro l
  induction l with
  | nil => rfl
  | cons c l ih =>
    by_cases h : c.isDigit = true
    · simp [takeDigits, h, ih]
    · simp [takeDigits, h]

lemma takeDigits_of_append : ∀ (d r : List Char), d.all Char.isDigit = true →
    (∀ c r2, r = c :: r2 → c.isDigit = false) →
    takeDigits (d ++ r) = (d, r) := by
  intro d
  induction d with
  | nil =>
    intro r _ hr
    cases r with
    | nil => rfl
    | cons c r2 => simp [takeDigits, hr c r2 rfl]
  | cons c d ih =>
    intro r hd hr
    have hc : c.isDigit = true := by
      simp [List.all_cons] at hd
      exact hd.1
    have hd2 : d.all Char.isDigit = true := by
      simp [List.all_cons] at hd
      simpa using hd.2
    simp [takeDigits, hc, ih r hd2 hr]

lemma takeDigits_self (d : List Char) (hd : d.all Char.isDigit = true) :
    takeDigits d = (d, []) := by
  have h := takeDigits_of_append d [] hd (by intro c r2 he; exact absurd he (by simp))
  simpa using h

lemma isDigit_ne_v (c : Char) (h : c.isDigit = true) : c ≠ 'v' := by
  intro he
  subst he
  simp [Char.isDigit] at h

lemma matchRC_sound : ∀ (rest rc rem : List Char), matchRC rest = (rc, rem) →
    rest = rc ++ rem ∧
    (rc = [] ∨ ∃ rcd, rcd ≠ [] ∧ rcd.all Char.isDigit = true ∧
      rc = '-' :: 'r' :: 'c' :: rcd) := by
  intro rest rc rem h
  unfold matchRC at h
  split at h
  · next c1 c2 c3 l7 =>
    by_cases hcc : (c1 == '-' && c2 == 'r' && c3 == 'c') = true
    · rw [if_pos hcc] at h
      simp only [Bool.and_eq_true, beq_iff_eq] at hcc
      obtain ⟨⟨hc1, hc2⟩, hc3⟩ := hcc
      subst hc1
      subst hc2
      subst hc3
      rcases htd : takeDigits l7 with ⟨rcd, l8⟩
      rw [htd] at h
      dsimp only at h
      by_cases he : rcd.isEmpty = true
      · rw [if_pos he] at h
        obtain ⟨h1, h2⟩ := Prod.mk.inj h
        subst h1
        subst h2
        exact ⟨rfl, Or.inl rfl⟩
      · rw [if_neg he] at h
        obtain ⟨h1, h2⟩ := Prod.mk.inj h
        have hl7 : rcd ++ l8 = l7 := by
          have hx := takeDigits_append_self l7
          rw [htd] at hx
          exact hx
        subst h1
        subst h2
        refine ⟨by rw [← hl7]; simp, Or.inr ⟨rcd, ?_, ?_, rfl⟩⟩
        · simpa [List.isEmpty_iff] using he
        · have hx := takeDigits_all_digits l7
          rw [htd] at hx
          exact hx
    · rw [if_neg hcc] at h
      obtain ⟨h1, h2⟩ := Prod.mk.inj h
      subst h1
      subst h2
      exact ⟨rfl, Or.inl rfl⟩
  · obtain ⟨h1, h2⟩ := Prod.mk.inj h
    subst h1
    subst h2
    exact ⟨rfl, Or.inl rfl⟩

lemma spec_of_strip (maj minr pat rc : List Char)
    (hmaj : maj ≠ []) (hmaj2 : maj.all Char.isDigit = true)
    (hmin : minr ≠ []) (hmin2 : minr.all Char.isDigit = true)
    (hpat : pat ≠ []) (hpat2 : pat.all Char.isDigit = true)
    (hrc : rc = [] ∨ ∃ rcd, rcd ≠ [] ∧ rcd.all Char.isDigit = true ∧
      rc = '-' :: 'r' :: 'c' :: rcd) :
    ∀ l : List Char, stripLeadV l = maj ++ ('.' :: (minr ++ ('.' :: (pat ++ rc)))) →
      specGrammarL l = true := by
  intro l hl
  have hm1 : maj.isEmpty = false := by simpa [List.isEmpty_iff] using hmaj
  have hm2 : minr.isEmpty = false := by simpa [List.isEmpty_iff] using hmin
  have hm3 : pat.isEmpty = false := by simpa [List.isEmpty_iff] using hpat
  have hdot1 : ∀ (c : Char) (r2 : List Char),
      ('.' : Char) :: (minr ++ ('.' :: (pat ++ rc))) = c :: r2 → c.isDigit = false := by
    intro c r2 he
    injection he with h1 _
    rw [← h1]
    decide
  have hdot2 : ∀ (c : Char) (r2 : List Char),
      ('.' : Char) :: (pat ++ rc) = c :: r2 → c.isDigit = false := by
    intro c r2 he
    injection he with h1 _
    rw [← h1]
    decide
  have hpatrc : takeDigits (pat ++ rc) = (pat, rc) := by
    rcases hrc with hrcnil | ⟨rcd, hrcd1, hrcd2, hrceq⟩
    · subst hrcnil
      simpa using takeDigits_self pat hpat2
    · subst hrceq
      exact takeDigits_of_append pat _ hpat2 (by
        intro c r2 he
        injection he with h1 _
        rw [← h1]
        decide)
  have hrctail : specRCTail rc = true := by
    rcases hrc with hrcnil | ⟨rcd, hrcd1, hrcd2, hrceq⟩
    · subst hrcnil
      rfl
    · subst hrceq
      unfold specRCTail
      dsimp only
      rw [takeDigits_self rcd hrcd2]
      simp [List.isEmpty_iff, hrcd1]
  unfold specGrammarL
  rw [hl, takeDigits_of_append maj _ hmaj2 hdot1]
  dsimp only
  rw [takeDigits_of_append minr _ hmin2 hdot2]
  dsimp only
  rw [hpatrc]
  dsimp only
  simp [hm1, hm2, hm3, hrctail]

lemma matchAfterV_sound : ∀ (vpart l1 : List Char) (m : SubMatch),
    matchAfterV vpart l1 = some m →
    m.groupV = vpart ∧
    m.full = vpart ++ m.groupMajor ++ '.' :: m.groupMinor ++ '.' :: m.groupPatch ++ m.groupRC ∧
    (∃ post, l1 = m.groupMajor ++
      ('.' :: (m.groupMinor ++ ('.' :: (m.groupPatch ++ (m.groupRC ++ post)))))) ∧
    m.groupMajor ≠ [] ∧ m.groupMajor.all Char.isDigit = true ∧
    m.groupMinor ≠ [] ∧ m.groupMinor.all Char.isDigit = true ∧
    m.groupPatch ≠ [] ∧ m.groupPatch.all Char.isDigit = true ∧
    (m.groupRC = [] ∨ ∃ rcd, rcd ≠ [] ∧ rcd.all Char.isDigit = true ∧
      m.groupRC = '-' :: 'r' :: 'c' :: rcd) := by
  intro vpart l1 m h
  unfold matchAfterV at h
  rcases h1 : takeDigits l1 with ⟨maj, l2⟩
  rw [h1] at h
  dsimp only at h
  by_cases he1 : maj.isEmpty = true
  · rw [if_pos he1] at h
    exact Option.noConfusion h
  rw [if_neg he1] at h
  cases l2 with
  | nil => exact Option.noConfusion h
  | cons c1 l3 =>
    dsimp only at h
    by_cases hc1 : (c1 == '.') = true
    · rw [if_pos hc1] at h
      have hc1e : c1 = '.' := by simpa [beq_iff_eq] using hc1
      subst hc1e
      rcases h2 : takeDigits l3 with ⟨minr, l4⟩
      rw [h2] at h
      dsimp only at h
      by_cases he2 : minr.isEmpty = true
      · rw [if_pos he2] at h
        exact Option.noConfusion h
      rw [if_neg he2] at h
      cases l4 with
      | nil => exact Option.noConfusion h
      | cons c2 l5 =>
        dsimp only at h
        by_cases hc2 : (c2 == '.') = true
        · rw [if_pos hc2] at h
          have hc2e : c2 = '.' := by simpa [beq_iff_eq] using hc2
          subst hc2e
          rcases h3 : takeDigits l5 with ⟨pat, l6⟩
          rw [h3] at h
          dsimp only at h
          by_cases he3 : pat.isEmpty = true
          · rw [if_pos he3] at h
            exact Option.noConfusion h
          rw [if_neg he3] at h
          rcases h4 : matchRC l6 with ⟨rcpart, rem⟩
          rw [h4] at h
          dsimp only at h
          injection h with hm
          subst hm
          obtain ⟨e4, hrcshape⟩ := matchRC_sound l6 rcpart rem h4
          have e1 : maj ++ ('.' :: l3) = l1 := by
            have hx := takeDigits_append_self l1
            rw [h1] at hx
            exact hx
          have e2 : minr ++ ('.' :: l5) = l3 := by
            have hx := takeDigits_append_self l3
            rw [h2] at hx
            exact hx
          have e3 : pat ++ l6 = l5 := by
            have hx := takeDigits_append_self l5
            rw [h3] at hx
            exact hx
          have hmaj2 : maj.all Char.isDigit = true := by
            have hx := takeDigits_all_digits l1
            rw [h1] at hx
            exact hx
          have hmin2 : minr.all Char.isDigit = true := by
            have hx := takeDigits_all_digits l3
            rw [h2] at hx
            exact hx
          have hpat2 : pat.all Char.isDigit = true := by
            have hx := takeDigits_all_digits l5
            rw [h3] at hx
            exact hx
          refine ⟨rfl, rfl, ⟨rem, ?_⟩, ?_, hmaj2, ?_, hmin2, ?_, hpat2, hrcshape⟩
          · rw [← e1, ← e2, ← e3, e4]
          · simpa [List.isEmpty_iff] using he1
          · simpa [List.isEmpty_iff] using he2
          · simpa [List.isEmpty_iff] using he3
        · rw [if_neg hc2] at h
          exact Option.noConfusion h
    · rw [if_neg hc1] at h
      exact Option.noConfusion h

lemma matchVersionAt_sound : ∀ (l : List Char) (m : SubMatch),
    matchVersionAt l = some m →
    (∃ post, l = m.full ++ post) ∧ specGrammarL m.full = true := by
  intro l m h
  unfold matchVersionAt at h
  cases l with
  | nil =>
    rw [show matchAfterV [] [] = none from rfl] at h
    exact Option.noConfusion h
  | cons c rest =>
    dsimp only at h
    by_cases hv : (c == 'v') = true
    · rw [if_pos hv] at h
      have hve : c = 'v' := by simpa [beq_iff_eq] using hv
      subst hve
      obtain ⟨hgv, hfull, ⟨post, hdec⟩, hmaj1, hmaj2, hmin1, hmin2, hpat1, hpat2, hrc⟩ :=
        matchAfterV_sound ['v'] rest m h
      constructor
      · refine ⟨post, ?_⟩
        rw [hdec, hfull]
        simp [List.append_assoc]
      · refine spec_of_strip m.groupMajor m.groupMinor m.groupPatch m.groupRC
          hmaj1 hmaj2 hmin1 hmin2 hpat1 hpat2 hrc m.full ?_
        rw [hfull]
        simp [stripLeadV, List.append_assoc]
    · rw [if_neg hv] at h
      obtain ⟨hgv, hfull, ⟨post, hdec⟩, hmaj1, hmaj2, hmin1, hmin2, hpat1, hpat2, hrc⟩ :=
        matchAfterV_sound [] (c :: rest) m h
      obtain ⟨hd, tl, hmaj_eq⟩ := List.exists_cons_of_ne_nil hmaj1
      have hhd : hd.isDigit = true := by
        rw [hmaj_eq] at hmaj2
        simp [List.all_cons] at hmaj2
        exact hmaj2.1
      have hne := isDigit_ne_v hd hhd
      constructor
      · refine ⟨post, ?_⟩
        rw [hdec, hfull]
        simp [List.append_assoc]
      · refine spec_of_strip m.groupMajor m.groupMinor m.groupPatch m.groupRC
          hmaj1 hmaj2 hmin1 hmin2 hpat1 hpat2 hrc m.full ?_
        rw [hfull, hmaj_eq]
        simp [stripLeadV, hne, List.append_assoc]

lemma findVersionSubmatch_sound : ∀ (l : List Char) (m : SubMatch),
    findVersionSubmatch l = some m →
    ∃ pre post, l = pre ++ (m.full ++ post) ∧ specGrammarL m.full = true := by
  intro l
  induction l with
  | nil =>
    intro m h
    rw [show findVersionSubmatch [] = none from rfl] at h
    exact Option.noConfusion h
  | cons c rest ih =>
    intro m h
    unfold findVersionSubmatch at h
    rcases hma : matchVersionAt (c :: rest) with _ | m2
    · rw [hma] at h
      dsimp only at h
      obtain ⟨pre, post, hdec, hspec⟩ := ih m h
      refine ⟨c :: pre, post, ?_, hspec⟩
      rw [hdec]
      rfl
    · rw [hma] at h
      dsimp only at h
      injection h with hm
      subst hm
      obtain ⟨⟨post, hdec⟩, hspec⟩ := matchVersionAt_sound (c :: rest) m2 hma
      exact ⟨[], post, by simpa using hdec, hspec⟩

lemma Parse_eq_error_of_none (s : String) (h : findVersionSubmatch s.data = none) :
    Parse s = Except.error (invalidMsg s) := by
  simp [Parse, h]

end Semver


lemma updateStep_subst (version : Semver.Version) (isb : Bool)
    (hcl : version.RCVersion > 0 → isb = true) (acc : List VersionPair) (p : VersionPair) :
    updateStep version isb acc p =
      acc ++ [if p.release.Major == version.Major then
        { release := version, tag := "", docs := p.docs } else p] := by
  by_cases h1 : (p.release.Major == version.Major) = true
  · simp [updateStep, h1]
  · have h1f : (p.release.Major == version.Major) = false := by
      simpa using h1
    by_cases hrc : version.RCVersion > 0
    · simp [updateStep, h1f, hcl hrc]
    · simp [updateStep, h1f, hrc]

lemma foldl_updateStep_subst (version : Semver.Version) (isb : Bool)
    (hcl : version.RCVersion > 0 → isb = true) :
    ∀ (l acc : List VersionPair),
      l.foldl (updateStep version isb) acc =
        acc ++ l.map (fun p => if p.release.Major == version.Major then
          { release := version, tag := "", docs := p.docs } else p) := by
  intro l
  induction l with
  | nil => intro acc; simp
  | cons p l ih =>
    intro acc
    rw [List.foldl_cons, updateStep_subst version isb hcl, ih, List.map_cons]
    simp

lemma updateStep_keep (version : Semver.Version) (isb : Bool) (acc : List VersionPair)
    (p : VersionPair) (h1 : (p.release.Major == version.Major) = false)
    (h2 : (p.tag == "main") = false) :
    updateStep version isb acc p = acc ++ [p] := by
  simp [updateStep, h1, h2]

lemma foldl_updateStep_keep (version : Semver.Version) (isb : Bool) :
    ∀ (l acc : List VersionPair),
      (∀ p ∈ l, (p.release.Major == version.Major) = false ∧ (p.tag == "main") = false) →
      l.foldl (updateStep version isb) acc = acc ++ l := by
  intro l
  induction l with
  | nil => intro acc _; simp
  | cons p l ih =>
    intro acc h
    rw [List.foldl_cons, updateStep_keep version isb acc p (h p (by simp)).1 (h p (by simp)).2,
      ih]
    · simp
    · intro q hq
      exact h q (by simp [hq])

/-! ## Claim theorems -/

/-- Claim C2: the two concrete version-pair updates from the specification,
and the general behaviour of `updateVersionPairs` — when some pair's release
major matches the new version, exactly those pairs are substituted by the new
version (docs labels preserved) and everything else is unchanged; when the
new version is an RC of an untracked major, a fresh `main:<major+1>.0` pair
is inserted at the head, the `main` pair's slot receives the new version with
the old `main` docs label, and all other pairs are unchanged. -/
theorem claim_C2_theorem :
    (updateVersionPairs
        [⟨⟨0,0,0,0⟩, "main", "19.0"⟩, ⟨⟨18,0,0,1⟩, "", "18.0"⟩] ⟨18,0,0,2⟩ =
      [⟨⟨0,0,0,0⟩, "main", "19.0"⟩, ⟨⟨18,0,0,2⟩, "", "18.0"⟩]) ∧
    (updateVersionPairs
        [⟨⟨0,0,0,0⟩, "main", "19.0"⟩, ⟨⟨17,0,3,0⟩, "", "17.0"⟩] ⟨19,0,0,1⟩ =
      [⟨⟨0,0,0,0⟩, "main", "20.0"⟩, ⟨⟨19,0,0,1⟩, "", "19.0"⟩, ⟨⟨17,0,3,0⟩, "", "17.0"⟩]) ∧
    (∀ (pairs : List VersionPair) (version : Semver.Version),
      pairs.any (fun p => p.release.Major == version.Major) = true →
      updateVersionPairs pairs version =
        pairs.map (fun p => if p.release.Major == version.Major then
          { release := version, tag := "", docs := p.docs } else p)) ∧
    (∀ (before after : List VersionPair) (mp : VersionPair) (version : Semver.Version),
      version.RCVersion ≠ 0 →
      (before ++ mp :: after).any (fun p => p.release.Major == version.Major) = false →
      mp.tag = "main" →
      (∀ p ∈ before, p.tag ≠ "main") →
      (∀ p ∈ after, p.tag ≠ "main") →
      updateVersionPairs (before ++ mp :: after) version =
        newMainPair version ::
          (before ++ { release := version, tag := "", docs := mp.docs } :: after)) := by
  refine ⟨rfl, rfl, ?_, ?_⟩
  · intro pairs version hany
    unfold updateVersionPairs
    rw [foldl_updateStep_subst version (isRCBumpOf pairs version) ?hcl pairs []]
    · simp
    case hcl =>
      intro hrc
      simp [isRCBumpOf, hany, Nat.pos_iff_ne_zero.mp hrc]
  · intro before after mp version hrc hany hmp hbef haft
    have hanyf := List.any_eq_false.mp hany
    have hisb : isRCBumpOf (before ++ mp :: after) version = false := by
      simp [isRCBumpOf, hany]
    unfold updateVersionPairs
    rw [hisb, List.foldl_append,
      foldl_updateStep_keep version false before [] ?hb, List.foldl_cons]
    case hb =>
      intro p hp
      refine ⟨by simpa using hanyf p (by simp [hp]), by simpa using hbef p hp⟩
    have hstep : updateStep version false ([] ++ before) mp =
        (newMainPair version :: before) ++
          [{ release := version, tag := "", docs := mp.docs }] := by
      have hmpf : (mp.release.Major == version.Major) = false := by
        simpa using hanyf mp (by simp)
      have hrc2 : (decide (version.RCVersion > 0)) = true := by
        simp [Nat.pos_of_ne_zero hrc]
      simp [updateStep, hmpf, hmp, hrc2]
    rw [hstep, foldl_updateStep_keep version false after _ ?ha]
    · simp
    case ha =>
      intro p hp
      refine ⟨by simpa using hanyf p (by simp [hp]), by simpa using haft p hp⟩

/-- Witness for C2: the general clauses applied to concrete tables. -/
theorem claim_C2_witness :
    updateVersionPairs [⟨⟨18,0,0,1⟩, "", "18.0"⟩] ⟨18,0,0,2⟩ =
      [⟨⟨18,0,0,2⟩, "", "18.0"⟩] ∧
    updateVersionPairs [⟨⟨0,0,0,0⟩, "main", "21.0"⟩] ⟨21,0,0,1⟩ =
      [newMainPair ⟨21,0,0,1⟩, ⟨⟨21,0,0,1⟩, "", "21.0"⟩] := by
  constructor
  · exact (claim_C2_theorem.2.2.1 [⟨⟨18,0,0,1⟩, "", "18.0"⟩] ⟨18,0,0,2⟩
      (by decide)).trans (by decide)
  · exact (claim_C2_theorem.2.2.2 [] [] ⟨⟨0,0,0,0⟩, "main", "21.0"⟩ ⟨21,0,0,1⟩
      (by decide) (by decide) rfl (by simp) (by simp)).trans (by simp)

/-- Claim C1, counterexample: a handler step whose body panics with a value
that is not an `error` (for example a string) is recovered but returns nil —
the panic is not converted into a returned error, refuting the claim for
arbitrary panic values. -/
theorem claim_C1_counterexample :
    handlerStep (BodyOutcome.panicked (PanicVal.nonErr "runtime fault")) = none := rfl

/-- Claim C1, amended: every top-level handler step recovers any panic and
returns normally; a panic whose value is an `error` becomes the step's
returned error, while a panic with a non-error value is swallowed and the
step returns nil; a body that returns normally keeps its own result. -/
theorem claim_C1_amended : ∀ body : BodyOutcome,
    (∀ m, body = BodyOutcome.panicked (PanicVal.errVal m) → handlerStep body = some m) ∧
    (∀ d, body = BodyOutcome.panicked (PanicVal.nonErr d) → handlerStep body = none) ∧
    (∀ e, body = BodyOutcome.returned e → handlerStep body = e) := by
  intro body
  refine ⟨?_, ?_, ?_⟩ <;> rintro x rfl <;> rfl

/-- Witness for C1: the amended theorem applied to a body panicking with an
`error` value. -/
theorem claim_C1_witness :
    handlerStep (BodyOutcome.panicked (PanicVal.errVal "api failure")) = some "api failure" :=
  (claim_C1_amended (BodyOutcome.panicked (PanicVal.errVal "api failure"))).1 "api failure" rfl

/-- Claim C3, counterexample: `a1.2.3b` does not match the specification
grammar (junk before and after), yet `semver.Parse` succeeds, because the
code's regexp is unanchored and `FindStringSubmatch` finds `1.2.3` inside the
string. -/
theorem claim_C3_counterexample :
    Semver.specGrammar "a1.2.3b" = false ∧
    Semver.Parse "a1.2.3b" = Except.ok ⟨1, 2, 3, 0⟩ := ⟨rfl, rfl⟩

/-- Claim C3, amended: `semver.Parse` returns the invalid-input error (and no
version) for every input string in which no substring matches the grammar
`[v]MAJOR.MINOR.PATCH[-rcN]`; a string that merely fails the anchored grammar
but contains a matching substring parses successfully. -/
theorem claim_C3_amended : ∀ s : String,
    (∀ pre core post : List Char, s.data = pre ++ (core ++ post) →
      Semver.specGrammarL core = false) →
    Semver.Parse s = Except.error (Semver.invalidMsg s) := by
  intro s h
  rcases hf : Semver.findVersionSubmatch s.data with _ | m
  · exact Semver.Parse_eq_error_of_none s hf
  · obtain ⟨pre, post, hdec, hspec⟩ := Semver.findVersionSubmatch_sound s.data m hf
    have hfalse := h pre m.full post hdec
    rw [hspec] at hfalse
    exact absurd hfalse (by simp)

/-- Witness for C3: the amended theorem applied to the empty string. -/
theorem claim_C3_witness :
    Semver.Parse "" = Except.error (Semver.invalidMsg "") := by
  apply claim_C3_amended
  intro pre core post hd
  have h0 : pre ++ (core ++ post) = ([] : List Char) := by
    rw [← hd]
  have hc : core = [] := (List.append_eq_nil.mp (List.append_eq_nil.mp h0).2).1
  rw [hc]
  decide

/-- Claim C4: the claim states that every local-clone operation runs `git`
with the working directory set to the handle's configured local directory;
the code sets no directory at all for `Add`, `Commit`, `Push` and `Clone`
(they run in the process's current directory) and hard-codes `/tmp/website`
for `Status`, which differs from the handle's configured directory at the
failing input below.  `Checkout`, `Clean`, `Fetch`, `Pull`, `ResetHard` and
`CherryPickMerge` do use the handle's directory. -/
theorem claim_C4_theorem :
    (∀ (r : Git.Repo) (args : List String) (msg ref sha : String)
        (copts : Git.CommitOpts) (popts : Git.PushOpts),
      (r.addCmd args).dir = none ∧
      (r.commitCmd msg copts).dir = none ∧
      (r.pushCmd popts).dir = none ∧
      r.cloneCmd.dir = none ∧
      (r.statusCmd args).dir = some "/tmp/website" ∧
      (r.checkoutCmd ref).dir = some r.LocalDir ∧
      r.cleanCmd.dir = some r.LocalDir ∧
      (r.fetchCmd args).dir = some r.LocalDir ∧
      r.pullCmd.dir = some r.LocalDir ∧
      (r.resetHardCmd ref).dir = some r.LocalDir ∧
      (r.cherryPickMergeCmd sha).dir = some r.LocalDir) ∧
    ((Git.Repo.mk "vitessio" "website" "/tmp/pull_request_handler/website" "main").statusCmd
        ["-s"]).dir ≠
      some (Git.Repo.mk "vitessio" "website" "/tmp/pull_request_handler/website" "main").LocalDir := by
  constructor
  · intro r args msg ref sha copts popts
    exact ⟨rfl, rfl, rfl, rfl, rfl, rfl, rfl, rfl, rfl, rfl, rfl⟩
  · decide

/-- Claim C5: for every port whose cherry-pick reports conflicts, the port PR
is opened as a draft (and is a draft exactly when the cherry-pick
conflicted), carries `Merge Conflict` and `Skip CI` in addition to the
carried-over labels and the direction label, and receives a comment that is
addressed to the original author and contains the target branch name and the
merge-commit SHA; a clean cherry-pick produces no conflict comment. -/
theorem claim_C5_theorem : ∀ (cp : Option String)
    (author mergedCommitSHA branch origTitle : String) (origNumber : Nat)
    (portType newBranch owner repoName : String) (newPRNumber : Nat)
    (labels : List String) (a : PortActions),
    portPRActions cp author mergedCommitSHA branch origTitle origNumber portType newBranch
      owner repoName newPRNumber labels = Except.ok a →
    (a.newPR.draft = cherryPickConflict cp) ∧
    (cherryPickConflict cp = true →
      a.labelsAdded =
        labels ++ ["Merge Conflict", "Skip CI"] ++
          (if portType == "backport" then ["Backport"]
           else if portType == "forwardport" then ["Forwardport"] else []) ∧
      a.conflictComment =
        some (conflictCommentBody author portType owner repoName newPRNumber branch
          mergedCommitSHA) ∧
      (∃ rest : List Char,
        (conflictCommentBody author portType owner repoName newPRNumber branch
            mergedCommitSHA).data = ("Hello @" ++ author).data ++ rest) ∧
      (∃ pre post : List Char,
        (conflictCommentBody author portType owner repoName newPRNumber branch
            mergedCommitSHA).data = pre ++ branch.data ++ post) ∧
      (∃ pre post : List Char,
        (conflictCommentBody author portType owner repoName newPRNumber branch
            mergedCommitSHA).data = pre ++ mergedCommitSHA.data ++ post)) ∧
    (cherryPickConflict cp = false → a.conflictComment = none) := by
  intro cp author sha branch origTitle origNumber portType newBranch owner repoName
    newPRNumber labels a h
  cases cp with
  | none =>
    simp only [portPRActions, Except.ok.injEq] at h
    subst h
    refine ⟨rfl, ?_, ?_⟩
    · intro hc
      exact absurd hc (by simp [cherryPickConflict])
    · intro _
      rfl
  | some msg =>
    by_cases hc : strContains msg "conflicts" = true
    · simp only [portPRActions, hc, if_true, Except.ok.injEq] at h
      subst h
      have hflag : cherryPickConflict (some msg) = true := by
        simp [cherryPickConflict, hc]
      refine ⟨by simp [mkPortedPR, hflag], ?_, ?_⟩
      · intro _
        refine ⟨by simp [portedPRLabels], rfl, ?_, ?_, ?_⟩
        · refine ⟨(", there are conflicts in this " ++ portType ++
            ".\n\nPlease address them in order to merge this Pull Request. You can execute the snippet below to reset your branch and resolve the conflict manually.\n\nMake sure you replace `origin` by the name of the " ++
            owner ++ "/" ++ repoName ++ " remote \n```\ngit fetch --all\ngh pr checkout " ++
            toString newPRNumber ++ " -R " ++ owner ++ "/" ++ repoName ++
            "\ngit reset --hard origin/" ++ branch ++ "\ngit cherry-pick -m 1 " ++ sha ++
            "\n").data, ?_⟩
          simp only [conflictCommentBody, String.data_append, List.append_assoc]
        · refine ⟨("Hello @" ++ author ++ ", there are conflicts in this " ++ portType ++
            ".\n\nPlease address them in order to merge this Pull Request. You can execute the snippet below to reset your branch and resolve the conflict manually.\n\nMake sure you replace `origin` by the name of the " ++
            owner ++ "/" ++ repoName ++ " remote \n```\ngit fetch --all\ngh pr checkout " ++
            toString newPRNumber ++ " -R " ++ owner ++ "/" ++ repoName ++
            "\ngit reset --hard origin/").data,
            ("\ngit cherry-pick -m 1 " ++ sha ++ "\n").data, ?_⟩
          simp only [conflictCommentBody, String.data_append, List.append_assoc]
        · refine ⟨("Hello @" ++ author ++ ", there are conflicts in this " ++ portType ++
            ".\n\nPlease address them in order to merge this Pull Request. You can execute the snippet below to reset your branch and resolve the conflict manually.\n\nMake sure you replace `origin` by the name of the " ++
            owner ++ "/" ++ repoName ++ " remote \n```\ngit fetch --all\ngh pr checkout " ++
            toString newPRNumber ++ " -R " ++ owner ++ "/" ++ repoName ++
            "\ngit reset --hard origin/" ++ branch ++ "\ngit cherry-pick -m 1 ").data,
            ("\n").data, ?_⟩
          simp only [conflictCommentBody, String.data_append, List.append_assoc]
      · intro hfl
        rw [hflag] at hfl
        exact absurd hfl (by simp)
    · simp only [portPRActions, hc, if_false] at h
      exact absurd h (by simp [Bool.not_eq_true] at hc; simp [hc])

/-- Witness for C5: the theorem applied to a concrete conflicted port. -/
theorem claim_C5_witness :
    cherryPickConflict (some "cherry-pick has conflicts") = true ∧
    (mkPortedPR "release-18.0" "Fix bug" 123 "backport" "backport-123-to-release-18.0"
        true).draft = true ∧
    portedPRLabels ["Priority: P1"] true "backport" =
      ["Priority: P1", "Merge Conflict", "Skip CI", "Backport"] := by
  have h := claim_C5_theorem (some "cherry-pick has conflicts") "alice" "deadbeef"
    "release-18.0" "Fix bug" 123 "backport" "backport-123-to-release-18.0" "vitessio"
    "vitess" 124 ["Priority: P1"]
    { newPR := mkPortedPR "release-18.0" "Fix bug" 123 "backport"
        "backport-123-to-release-18.0" true
      labelsAdded := portedPRLabels ["Priority: P1"] true "backport"
      conflictComment := some (conflictCommentBody "alice" "backport" "vitessio" "vitess"
        124 "release-18.0" "deadbeef") }
    rfl
  obtain ⟨hdraft, hconf, -⟩ := h
  have hcc : cherryPickConflict (some "cherry-pick has conflicts") = true := by decide
  obtain ⟨hlab, -, -⟩ := hconf hcc
  exact ⟨hcc, hdraft.trans hcc, hlab.trans rfl⟩

/-- Claim C6: a diff-tree line whose new mode is the all-zero sentinel parses
to an entry carrying the line's path, the old mode, type blob, and neither
content nor SHA (shown both on the concrete deletion line from the test data
and for every matching line with new mode `000000`); a line that does not
match the six-field format yields an error. -/
theorem claim_C6_theorem :
    (∀ (readFile : String → Option String) (basedir : String),
      Git.ParseDiffTreeEntry readFile
        ":100644 000000 5716ca5987cbf97d6bb54920bea6adde242d87e6 0000000000000000000000000000000000000000 D\tbar/bar.txt"
        basedir =
        Except.ok { path := "bar/bar.txt", mode := "100644", typ := "blob"
                    content := none, sha := none }) ∧
    (∀ (readFile : String → Option String) (line basedir : String)
        (oldMode newMode oldSha newSha path : List Char),
      Git.matchDiffTreeLine line.data = some (oldMode, newMode, oldSha, newSha, path) →
      String.mk newMode = "000000" →
      Git.ParseDiffTreeEntry readFile line basedir =
        Except.ok { path := String.mk path, mode := String.mk oldMode, typ := "blob"
                    content := none, sha := none }) ∧
    (∀ (readFile : String → Option String) (line basedir : String),
      Git.matchDiffTreeLine line.data = none →
      Git.ParseDiffTreeEntry readFile line basedir =
        Except.error ("invalid diff-tree line format " ++ line)) := by
  refine ⟨?_, ?_, ?_⟩
  · intro readFile basedir
    rfl
  · intro readFile line basedir oldMode newMode oldSha newSha path h1 h2
    simp [Git.ParseDiffTreeEntry, h1, h2]
  · intro readFile line basedir h
    simp [Git.ParseDiffTreeEntry, h]

/-- Witness for C6: the malformed-line clause applied to the empty line. -/
theorem claim_C6_witness :
    Git.ParseDiffTreeEntry (fun _ => none) "" "" =
      Except.error ("invalid diff-tree line format " ++ "") :=
  claim_C6_theorem.2.2 (fun _ => none) "" "" rfl

/-- Claim C7: parsing each of `1.2.3`, `v1.2.3`, `v10.0.18`, `v18.0.0-rc1`
and rendering returns the original without the leading `v`; rendering always
emits `MAJOR.MINOR.PATCH` and appends `-rcN` exactly when the RC number is
positive. -/
theorem claim_C7_theorem :
    (Semver.Parse "1.2.3").map Semver.Version.render = Except.ok "1.2.3" ∧
    (Semver.Parse "v1.2.3").map Semver.Version.render = Except.ok "1.2.3" ∧
    (Semver.Parse "v10.0.18").map Semver.Version.render = Except.ok "10.0.18" ∧
    (Semver.Parse "v18.0.0-rc1").map Semver.Version.render = Except.ok "18.0.0-rc1" ∧
    (∀ v : Semver.Version, 0 < v.RCVersion →
      v.render = toString v.Major ++ "." ++ toString v.Minor ++ "." ++ toString v.Patch ++
        ("-rc" ++ toString v.RCVersion)) ∧
    (∀ v : Semver.Version, v.RCVersion = 0 →
      v.render = toString v.Major ++ "." ++ toString v.Minor ++ "." ++ toString v.Patch) := by
  refine ⟨rfl, rfl, rfl, rfl, ?_, ?_⟩
  · intro v h
    simp [Semver.Version.render, h]
  · intro v h
    simp [Semver.Version.render, h]

/-- Witness for C7: the two rendering clauses at concrete versions. -/
theorem claim_C7_witness :
    Semver.Version.render ⟨7, 8, 9, 2⟩ = "7.8.9-rc2" ∧
    Semver.Version.render ⟨7, 8, 9, 0⟩ = "7.8.9" := by
  constructor
  · rw [claim_C7_theorem.2.2.2.2.1 ⟨7, 8, 9, 2⟩ (by decide)]
    rfl
  · rw [claim_C7_theorem.2.2.2.2.2 ⟨7, 8, 9, 0⟩ rfl]
    rfl

/-- Claim C8: each Next helper increments its field and zeroes the fields
below it; each Prev helper, when its field is nonzero, decrements it and
zeroes the fields below, and its fatal branch is taken exactly when the
field is already zero. -/
theorem claim_C8_theorem : ∀ v : Semver.Version,
    v.nextMajor = ⟨v.Major + 1, 0, 0, 0⟩ ∧
    v.nextMinor = ⟨v.Major, v.Minor + 1, 0, 0⟩ ∧
    v.nextPatch = ⟨v.Major, v.Minor, v.Patch + 1, 0⟩ ∧
    v.nextRCVersion = ⟨v.Major, v.Minor, v.Patch, v.RCVersion + 1⟩ ∧
    (v.Major ≠ 0 → v.prevMajor = some ⟨v.Major - 1, 0, 0, 0⟩) ∧
    (v.Major = 0 → v.prevMajor = none) ∧
    (v.Minor ≠ 0 → v.prevMinor = some ⟨v.Major, v.Minor - 1, 0, 0⟩) ∧
    (v.Minor = 0 → v.prevMinor = none) ∧
    (v.Patch ≠ 0 → v.prevPatch = some ⟨v.Major, v.Minor, v.Patch - 1, 0⟩) ∧
    (v.Patch = 0 → v.prevPatch = none) ∧
    (v.RCVersion ≠ 0 → v.prevRCVersion = some ⟨v.Major, v.Minor, v.Patch, v.RCVersion - 1⟩) ∧
    (v.RCVersion = 0 → v.prevRCVersion = none) := by
  intro v
  refine ⟨rfl, rfl, rfl, rfl, ?_, ?_, ?_, ?_, ?_, ?_, ?_, ?_⟩ <;> intro h
  · simp [Semver.Version.prevMajor, h]
  · simp [Semver.Version.prevMajor, h]
  · simp [Semver.Version.prevMinor, h]
  · simp [Semver.Version.prevMinor, h]
  · simp [Semver.Version.prevPatch, h]
  · simp [Semver.Version.prevPatch, h]
  · simp [Semver.Version.prevRCVersion, h]
  · simp [Semver.Version.prevRCVersion, h]

/-- Witness for C8: the Prev clauses at concrete versions, on both sides of
the zero guard. -/
theorem claim_C8_witness :
    Semver.Version.prevMajor ⟨1, 2, 3, 4⟩ = some ⟨0, 0, 0, 0⟩ ∧
    Semver.Version.prevRCVersion ⟨1, 2, 3, 0⟩ = none := by
  constructor
  · exact (claim_C8_theorem ⟨1, 2, 3, 4⟩).2.2.2.2.1 (by decide)
  · exact (claim_C8_theorem ⟨1, 2, 3, 0⟩).2.2.2.2.2.2.2.2.2.2.2 rfl

/-- Claim C9: on an opened PR, a label case-insensitively equal to
`backport` or `forwardport` makes the label-automation step a no-op;
otherwise exactly the fixed `alwaysAddLabels` set is added. -/
theorem claim_C9_theorem : ∀ labels : List String,
    ((∃ l ∈ labels, eqFold l "backport" = true ∨ eqFold l "forwardport" = true) →
      addLabelsDecision labels = []) ∧
    ((∀ l ∈ labels, eqFold l "backport" = false ∧ eqFold l "forwardport" = false) →
      addLabelsDecision labels = alwaysAddLabels) := by
  intro labels
  constructor
  · rintro ⟨l, hl, hor⟩
    have hc : labels.any (fun l => eqFold l "backport" || eqFold l "forwardport") = true := by
      refine List.any_eq_true.mpr ⟨l, hl, ?_⟩
      rcases hor with h | h <;> simp [h]
    simp [addLabelsDecision, hc]
  · intro h
    have hc : labels.any (fun l => eqFold l "backport" || eqFold l "forwardport") = false := by
      simp only [List.any_eq_false, Bool.or_eq_true, not_or]
      intro x hx
      exact ⟨by simp [(h x hx).1], by simp [(h x hx).2]⟩
    simp [addLabelsDecision, hc]

/-- Witness for C9: both clauses at concrete label sets — `Backport` differs
from `backport` only by ASCII case, and `bac\u212Aport` (with U+212A KELVIN
SIGN) is fold-equal to `backport` through the Unicode fold orbit of `k`. -/
theorem claim_C9_witness :
    addLabelsDecision ["Backport"] = [] ∧
    addLabelsDecision ["bac\u212Aport"] = [] ∧
    addLabelsDecision ["Priority: P1"] = alwaysAddLabels := by
  refine ⟨?_, ?_, ?_⟩
  · exact ( claim_C9_theorem ["Backport"]).1 ⟨"Backport", by simp, Or.inl (by decide)⟩
  · exact ( claim_C9_theorem ["bac\u212Aport"]).1
      ⟨"bac\u212Aport", by simp, Or.inl (by decide)⟩
  · refine ( claim_C9_theorem ["Priority: P1"]).2 ?_
    intro l hl
    simp only [List.mem_singleton] at hl
    subst hl
    exact ⟨by decide, by decide⟩

/-- Claim C10: `createAndCheckoutBranch` discards the error of
`CreateBranch`; for every branch-creation failure, including ones other than
the tolerated "already exists" race, the function still sets up and checks
out the branch and returns nil. -/
theorem claim_C10_theorem : ∀ (env : BranchEnv) (msg : String),
    env.getRefResult = none →
    env.setupRepoResult = none →
    env.checkoutResult = none →
    env.createRefResult = some msg →
    strContains msg "already exists" = false →
    Git.CreateBranch env.createRefResult = Except.error msg ∧
    createAndCheckoutBranch env = Except.ok () := by
  intro env msg h1 h2 h3 h4 h5
  constructor
  · rw [h4]
    simp [Git.CreateBranch, h5]
  · simp [createAndCheckoutBranch, h1, h2, h3]

/-- Witness for C10: a concrete environment in which the `CreateRef` call
fails with a non-"already exists" error yet the function returns nil. -/
theorem claim_C10_witness :
    Git.CreateBranch (BranchEnv.mk none (some "boom") none none).createRefResult =
      Except.error "boom" ∧
    createAndCheckoutBranch (BranchEnv.mk none (some "boom") none none) = Except.ok () :=
  claim_C10_theorem (BranchEnv.mk none (some "boom") none none) "boom" rfl rfl rfl rfl
    (by decide)

end VitessBot
